import Mathlib

/-!
Verification of the kaggle-skill badge-collector core.

This file gives a shallow embedding, in Lean 4, of the badge tracker /
registry / phase orchestrator of the repository, together with the helper
utilities (`run_kaggle_cli`, `check_credentials`, `_poll_kernel`, `_mask`)
that the specification talks about.  Pure Python functions become Lean
functions; the progress ledger becomes an explicit association list that is
threaded through every operation; external effects (the remote CLI, sleeps,
prints) become explicit oracles and event lists; Python exceptions become
`Except` values.

Source files embedded from src/:
  - skills/kaggle/modules/badge-collector/scripts/orchestrator.py
  - skills/kaggle/modules/badge-collector/scripts/phase_1_instant_api.py
  - skills/kaggle/modules/badge-collector/scripts/phase_3_pipeline.py
  - skills/kaggle/modules/badge-collector/scripts/utils.py
  - skills/kaggle/shared/check_all_credentials.py

The files badge_tracker.py and badge_registry.py are part of the repository
(they are imported by orchestrator.py and exercised by tests/) but are not
under src/; the definitions embedding them are modelled from the
specification and say so in their doc comments.
-/

namespace KaggleSkill

/-- Modelled from the spec: a badge definition from badge_registry.py (the
registry file itself is not under src/).  Spec section 3: id, display name,
category, phase number, automatable flag, description.  `phase` is an `Int`
because the orchestrator CLI may compare it against an arbitrary parsed
integer. -/
structure BadgeDef where
  id : String
  name : String
  category : String
  phase : Int
  automatable : Bool
  description : String
deriving DecidableEq, Repr

/-- Modelled from the spec: the five allowed progress statuses
(spec section 3, badge_tracker.py is not under src/). -/
inductive Status where
  | pending
  | attempting
  | earned
  | failed
  | skipped
deriving DecidableEq, Repr

/-- Modelled from the spec: parsing/validation of the status strings that
`set_status` accepts (spec section 4.3; badge_tracker.py is not under
src/).  Any string other than the five allowed values is invalid. -/
def Status.ofString : String → Option Status
  | "pending" => some .pending
  | "attempting" => some .attempting
  | "earned" => some .earned
  | "failed" => some .failed
  | "skipped" => some .skipped
  | _ => none

/-- Modelled from the spec: a progress record (spec section 3): status,
free-text details, timestamp of last mutation. -/
structure ProgressRecord where
  status : Status
  details : String
  updated : Nat
deriving DecidableEq, Repr

/-- The persisted progress ledger: badge id to progress record.  The Python
code keeps it as a dict loaded from JSON; here it is an association list
queried through `List.lookup`. -/
abbrev ProgressMap := List (String × ProgressRecord)

/-- Modelled from the spec: reading a badge's record.  Ids that have no
record yet read as a fresh `pending` record, matching the load-time
initialization of spec section 4.2 (fresh record: status pending, empty
details). -/
def getRecord (m : ProgressMap) (id : String) : ProgressRecord :=
  (m.lookup id).getD ⟨Status.pending, "", 0⟩

/-- Point update of the ledger: the new binding shadows (and removes) any
previous binding for the same id; all other ids keep their records. -/
def updateRecord (m : ProgressMap) (id : String) (r : ProgressRecord) : ProgressMap :=
  (id, r) :: m.filter (fun p => p.1 != id)

/-- Modelled from the spec: the errors `set_status` can raise
(spec section 4.3): UnknownBadgeError and InvalidStatusError. -/
inductive TrackerError where
  | unknownBadge (id : String)
  | invalidStatus (s : String)
deriving DecidableEq, Repr

/-- Modelled from the spec: badge_tracker.set_status (spec section 4.3;
badge_tracker.py is not under src/): validates the id against the registry
(UnknownBadgeError otherwise), validates the status string
(InvalidStatusError otherwise), then updates the record, stamping the
current time. -/
def setStatus (registry : List BadgeDef) (m : ProgressMap)
    (id status details : String) (now : Nat) : Except TrackerError ProgressMap :=
  if (registry.find? (fun b => b.id == id)).isSome then
    match Status.ofString status with
    | some st => .ok (updateRecord m id ⟨st, details, now⟩)
    | none => .error (.invalidStatus status)
  else
    .error (.unknownBadge id)

/-- Modelled from the spec: badge_tracker.should_attempt (spec section 4.3;
badge_tracker.py is not under src/): false on earned, attempting or
skipped; true on pending or failed. -/
def shouldAttempt (m : ProgressMap) (id : String) : Bool :=
  match (getRecord m id).status with
  | .earned => false
  | .attempting => false
  | .skipped => false
  | .pending => true
  | .failed => true

theorem getRecord_updateRecord_self (m : ProgressMap) (id : String) (r : ProgressRecord) :
    getRecord (updateRecord m id r) id = r := by
  simp [getRecord, updateRecord, List.lookup]

theorem lookup_filter_ne (m : ProgressMap) (id id' : String) (h : id' ≠ id) :
    List.lookup id' (m.filter (fun p => p.1 != id)) = List.lookup id' m := by
  induction m with
  | nil => rfl
  | cons p tl ih =>
    by_cases hp : p.1 = id
    · have h1 : (p.1 != id) = false := by simp [hp]
      have h2 : (id' == p.1) = false := by
        simp [hp]
        exact h
      simp [List.filter, h1, List.lookup, h2, ih]
    · have h1 : (p.1 != id) = true := by simp [hp]
      simp only [List.filter, h1, List.lookup]
      by_cases hq : id' = p.1
      · simp [hq]
      · have h2 : (id' == p.1) = false := by simp [hq]
        simp [h2, ih]

theorem getRecord_updateRecord_ne (m : ProgressMap) (id id' : String)
    (r : ProgressRecord) (h : id' ≠ id) :
    getRecord (updateRecord m id r) id' = getRecord m id' := by
  have h2 : (id' == id) = false := by simp [h]
  simp [getRecord, updateRecord, List.lookup, h2, lookup_filter_ne m id id' h]

/-- C1: for every badge id present in the registry, should_attempt returns
false when the recorded status is earned, attempting or skipped, true when
it is pending or failed; and immediately after set_status(id, "failed",
"x") with no intervening mutation, should_attempt(id) is true. -/
theorem shouldAttempt_retry_policy (registry : List BadgeDef) (m : ProgressMap)
    (id : String) (now : Nat)
    (hmem : (registry.find? (fun b => b.id == id)).isSome = true) :
    ((getRecord m id).status = Status.earned ∨ (getRecord m id).status = Status.attempting ∨
      (getRecord m id).status = Status.skipped → shouldAttempt m id = false) ∧
    ((getRecord m id).status = Status.pending ∨ (getRecord m id).status = Status.failed →
      shouldAttempt m id = true) ∧
    ∃ m2, setStatus registry m id "failed" "x" now = Except.ok m2 ∧
      shouldAttempt m2 id = true := by
  refine ⟨?_, ?_, ?_⟩
  · intro h
    rcases h with h | h | h <;> simp [shouldAttempt, h]
  · intro h
    rcases h with h | h <;> simp [shouldAttempt, h]
  · refine ⟨updateRecord m id ⟨Status.failed, "x", now⟩, ?_, ?_⟩
    · simp only [setStatus, hmem, if_true]
      rfl
    · simp [shouldAttempt, getRecord_updateRecord_self]

/-- Witness for C1 at a concrete registry, ledger and id. -/
theorem shouldAttempt_retry_policy_witness :
    (([⟨"python_coder", "Python Coder", "Coder", 1, true, "Push a Python notebook"⟩] :
        List BadgeDef).find? (fun b => b.id == "python_coder")).isSome = true ∧
    (((getRecord [] "python_coder").status = Status.earned ∨
        (getRecord [] "python_coder").status = Status.attempting ∨
        (getRecord [] "python_coder").status = Status.skipped →
        shouldAttempt [] "python_coder" = false) ∧
      ((getRecord [] "python_coder").status = Status.pending ∨
        (getRecord [] "python_coder").status = Status.failed →
        shouldAttempt [] "python_coder" = true) ∧
      ∃ m2, setStatus [⟨"python_coder", "Python Coder", "Coder", 1, true,
          "Push a Python notebook"⟩] [] "python_coder" "failed" "x" 7 = Except.ok m2 ∧
        shouldAttempt m2 "python_coder" = true) :=
  ⟨by decide, shouldAttempt_retry_policy _ [] "python_coder" 7 (by decide)⟩

/-- Bulk direct update: write the same record value for every id in the
list (left to right, as the Python for-loops over set_status do). -/
def setAllD (m : ProgressMap) (ids : List String) (st : Status)
    (details : String) (now : Nat) : ProgressMap :=
  ids.foldl (fun acc bid => updateRecord acc bid ⟨st, details, now⟩) m

/-- Bulk validated update: the sequence of set_status calls a phase action
performs over a list of badge ids (for bid in actionable: set_status(bid, ...)),
failing at the first tracker error. -/
def setAllM (registry : List BadgeDef) (m : ProgressMap) (ids : List String)
    (status details : String) (now : Nat) : Except TrackerError ProgressMap :=
  ids.foldlM (fun acc bid => setStatus registry acc bid status details now) m

theorem setAllD_getRecord_not_mem (ids : List String) (m : ProgressMap)
    (st : Status) (details : String) (now : Nat) (id : String) (h : id ∉ ids) :
    getRecord (setAllD m ids st details now) id = getRecord m id := by
  induction ids generalizing m with
  | nil => rfl
  | cons a tl ih =>
    have ha : id ≠ a := fun he => h (he ▸ List.mem_cons_self a tl)
    have htl : id ∉ tl := fun he => h (List.mem_cons_of_mem a he)
    calc getRecord (setAllD (updateRecord m a ⟨st, details, now⟩) tl st details now) id
        = getRecord (updateRecord m a ⟨st, details, now⟩) id := ih _ htl
      _ = getRecord m id := getRecord_updateRecord_ne m a id _ ha

theorem setAllD_getRecord_mem (ids : List String) (m : ProgressMap)
    (st : Status) (details : String) (now : Nat) (id : String) (h : id ∈ ids) :
    getRecord (setAllD m ids st details now) id = ⟨st, details, now⟩ := by
  induction ids generalizing m with
  | nil => exact absurd h (List.not_mem_nil id)
  | cons a tl ih =>
    by_cases htl : id ∈ tl
    · exact ih _ htl
    · have ha : id = a := by
        rcases List.mem_cons.mp h with h1 | h1
        · exact h1
        · exact absurd h1 htl
      subst ha
      calc getRecord (setAllD (updateRecord m id ⟨st, details, now⟩) tl st details now) id
          = getRecord (updateRecord m id ⟨st, details, now⟩) id :=
            setAllD_getRecord_not_mem tl _ st details now id htl
        _ = ⟨st, details, now⟩ := getRecord_updateRecord_self m id _

theorem setAllM_eq_ok (registry : List BadgeDef) (ids : List String)
    (m : ProgressMap) (status details : String) (now : Nat) (st : Status)
    (hst : Status.ofString status = some st)
    (hvalid : ∀ id ∈ ids, (registry.find? (fun b => b.id == id)).isSome = true) :
    setAllM registry m ids status details now = .ok (setAllD m ids st details now) := by
  induction ids generalizing m with
  | nil => rfl
  | cons a tl ih =>
    have ha : (registry.find? (fun b => b.id == a)).isSome = true :=
      hvalid a (List.mem_cons_self a tl)
    have step : setStatus registry m a status details now =
        .ok (updateRecord m a ⟨st, details, now⟩) := by
      simp only [setStatus, ha, if_true, hst]
    simp only [setAllM, List.foldlM] at *
    rw [step]
    exact ih _ (fun id hid => hvalid id (List.mem_cons_of_mem a hid))

/-- Boolean success test on an Except value (the boolean flag a phase
action returns). -/
def exceptOk {ε α : Type} : Except ε α → Bool
  | .ok _ => true
  | .error _ => false

/-- Embedding of the shared multi-badge unit pattern of
phase_1_instant_api.py (_create_python_notebook, _create_dataset,
_create_model): filter the unit's badge ids with should_attempt; if none
is actionable return True with the ledger untouched; otherwise set every
actionable id to attempting, perform the remote operation (an oracle whose
ok value is the created resource slug and whose error value is the caught
exception text), then set every actionable id to earned (with the
slug-derived details) on success, or to failed (with the error text) on
failure, and return the success flag.  Tracker errors propagate; in the
source every unit id is a registry id, for which set_status never
raises. -/
def unitAction (registry : List BadgeDef) (ids : List String)
    (okDetail : String → String) (remote : Except String String)
    (m : ProgressMap) (now : Nat) : Except TrackerError (Bool × ProgressMap) :=
  let actionable := ids.filter (fun b => shouldAttempt m b)
  if actionable.isEmpty then .ok (true, m)
  else do
    let m1 ← setAllM registry m actionable "attempting" "" now
    match remote with
    | .ok slug => do
        let m2 ← setAllM registry m1 actionable "earned" (okDetail slug) now
        return (true, m2)
    | .error e => do
        let m2 ← setAllM registry m1 actionable "failed" e now
        return (false, m2)

/-- Embedding of phase_1_instant_api._create_python_notebook (lines 27-77):
the unit {python_coder, api_notebook_creator, code_uploader}, earned
details "notebook=slug". -/
def createPythonNotebook (registry : List BadgeDef) (remote : Except String String)
    (m : ProgressMap) (now : Nat) : Except TrackerError (Bool × ProgressMap) :=
  unitAction registry ["python_coder", "api_notebook_creator", "code_uploader"]
    (fun slug => "notebook=" ++ slug) remote m now

/-- Embedding of phase_1_instant_api._create_dataset (lines 290-346): the
unit {dataset_creator, api_dataset_creator}, earned details
"dataset=slug". -/
def createDataset (registry : List BadgeDef) (remote : Except String String)
    (m : ProgressMap) (now : Nat) : Except TrackerError (Bool × ProgressMap) :=
  unitAction registry ["dataset_creator", "api_dataset_creator"]
    (fun slug => "dataset=" ++ slug) remote m now

/-- Modelled from the spec: the registry entries the claims exercise
(badge_registry.py is not under src/).  Phase 1 ids are those listed in
the phase_1_instant_api.py module docstring and used by its actions; phase
3 ids are those used by phase_3_pipeline.py. -/
def kaggleRegistry : List BadgeDef := [
  ⟨"python_coder", "Python Coder", "Coder", 1, true, "Push a Python notebook"⟩,
  ⟨"r_coder", "R Coder", "Coder", 1, true, "Push an R notebook"⟩,
  ⟨"api_notebook_creator", "API Notebook Creator", "Coder", 1, true,
    "Create a notebook via the API"⟩,
  ⟨"utility_scripter", "Utility Scripter", "Coder", 1, true, "Push a utility script"⟩,
  ⟨"code_uploader", "Code Uploader", "Coder", 1, true, "Upload code"⟩,
  ⟨"code_forker", "Code Forker", "Coder", 1, true, "Fork a public notebook"⟩,
  ⟨"code_tagger", "Code Tagger", "Coder", 1, true, "Tag a notebook"⟩,
  ⟨"dataset_creator", "Dataset Creator", "Dataset", 1, true, "Create a dataset"⟩,
  ⟨"api_dataset_creator", "API Dataset Creator", "Dataset", 1, true,
    "Create a dataset via the API"⟩,
  ⟨"dataset_tagger", "Dataset Tagger", "Dataset", 1, true, "Tag a dataset"⟩,
  ⟨"dataset_documenter", "Dataset Documenter", "Dataset", 1, true, "Document a dataset"⟩,
  ⟨"model_creator", "Model Creator", "Model", 1, true, "Create a model"⟩,
  ⟨"api_model_creator", "API Model Creator", "Model", 1, true,
    "Create a model via the API"⟩,
  ⟨"model_variation_creator", "Model Variation Creator", "Model", 1, true,
    "Create a model variation"⟩,
  ⟨"model_tagger", "Model Tagger", "Model", 1, true, "Tag a model"⟩,
  ⟨"model_documenter", "Model Documenter", "Model", 1, true, "Document a model"⟩,
  ⟨"dataset_pipeline_creator", "Dataset Pipeline Creator", "Dataset", 3, true,
    "Create a dataset from notebook output"⟩,
  ⟨"model_pipeline_creator", "Model Pipeline Creator", "Model", 3, true,
    "Create a model from notebook output"⟩,
  ⟨"r_markdown_coder", "R Markdown Coder", "Coder", 3, true,
    "Push and execute R Markdown"⟩]

/-- C2 counterexample: when python_coder is already earned from a prior
run and the remote push fails, _create_python_notebook leaves python_coder
earned and sets the other two unit ids to failed — a mix of earned and
failed within one unit, so the unit does not end with all ids of the unit
in the same status. -/
theorem unitAction_mixed_terminal_statuses :
    (createPythonNotebook kaggleRegistry (Except.error "boom")
        [("python_coder", (⟨Status.earned, "", 0⟩ : ProgressRecord))] 1).map
      (fun r => (r.1, (getRecord r.2 "python_coder").status,
        (getRecord r.2 "api_notebook_creator").status,
        (getRecord r.2 "code_uploader").status))
      = Except.ok (false, Status.earned, Status.failed, Status.failed) := by
  rfl

/-- C2 amended: for every unit action whose badge ids are all registry
ids, the atomic transition law holds for the actionable subset of the
unit: if no id of the unit is actionable, the action returns True with the
ledger untouched; otherwise all actionable ids are set to attempting
before the remote call, afterwards all actionable ids are earned (on
remote success) or all failed (on remote failure) — never a split within
the actionable subset — the returned flag is the remote outcome, and every
id outside the actionable subset keeps its prior record. -/
theorem unitAction_atomic_on_actionable (registry : List BadgeDef) (ids : List String)
    (okDetail : String → String) (remote : Except String String)
    (m : ProgressMap) (now : Nat)
    (hvalid : ∀ id ∈ ids, (registry.find? (fun b => b.id == id)).isSome = true) :
    (ids.filter (fun b => shouldAttempt m b) = [] →
      unitAction registry ids okDetail remote m now = .ok (true, m)) ∧
    (ids.filter (fun b => shouldAttempt m b) ≠ [] →
      ∃ m1 m2,
        setAllM registry m (ids.filter (fun b => shouldAttempt m b)) "attempting" "" now
          = .ok m1 ∧
        (∀ id ∈ ids.filter (fun b => shouldAttempt m b),
          (getRecord m1 id).status = Status.attempting) ∧
        unitAction registry ids okDetail remote m now = .ok (exceptOk remote, m2) ∧
        (∀ id ∈ ids.filter (fun b => shouldAttempt m b),
          (getRecord m2 id).status =
            if exceptOk remote then Status.earned else Status.failed) ∧
        (∀ id, id ∉ ids.filter (fun b => shouldAttempt m b) →
          getRecord m2 id = getRecord m id)) := by
  have hvalidF : ∀ id ∈ ids.filter (fun b => shouldAttempt m b),
      (registry.find? (fun b => b.id == id)).isSome = true :=
    fun id hid => hvalid id (List.mem_of_mem_filter hid)
  constructor
  · intro hemp
    simp [unitAction, hemp]
  · intro hne
    have hempF : (ids.filter (fun b => shouldAttempt m b)).isEmpty = false := by
      cases hF : ids.filter (fun b => shouldAttempt m b) with
      | nil => exact absurd hF hne
      | cons a tl => rfl
    set actionable := ids.filter (fun b => shouldAttempt m b) with hact
    have h1 : setAllM registry m actionable "attempting" "" now
        = .ok (setAllD m actionable Status.attempting "" now) :=
      setAllM_eq_ok registry actionable m "attempting" "" now Status.attempting rfl hvalidF
    refine ⟨setAllD m actionable Status.attempting "" now, ?_⟩
    cases remote with
    | ok slug =>
      have h2 : setAllM registry (setAllD m actionable Status.attempting "" now)
          actionable "earned" (okDetail slug) now
          = .ok (setAllD (setAllD m actionable Status.attempting "" now)
              actionable Status.earned (okDetail slug) now) :=
        setAllM_eq_ok registry actionable _ "earned" (okDetail slug) now Status.earned rfl hvalidF
      refine ⟨setAllD (setAllD m actionable Status.attempting "" now)
          actionable Status.earned (okDetail slug) now, h1, ?_, ?_, ?_, ?_⟩
      · intro id hid
        rw [setAllD_getRecord_mem actionable m Status.attempting "" now id hid]
      · simp only [unitAction, hempF, Bool.false_eq_true, if_false, bind, Except.bind, h1, h2,
          exceptOk]
        rfl
      · intro id hid
        rw [setAllD_getRecord_mem actionable _ Status.earned (okDetail slug) now id hid]
        rfl
      · intro id hid
        rw [setAllD_getRecord_not_mem actionable _ Status.earned (okDetail slug) now id hid,
          setAllD_getRecord_not_mem actionable m Status.attempting "" now id hid]
    | error e =>
      have h2 : setAllM registry (setAllD m actionable Status.attempting "" now)
          actionable "failed" e now
          = .ok (setAllD (setAllD m actionable Status.attempting "" now)
              actionable Status.failed e now) :=
        setAllM_eq_ok registry actionable _ "failed" e now Status.failed rfl hvalidF
      refine ⟨setAllD (setAllD m actionable Status.attempting "" now)
          actionable Status.failed e now, h1, ?_, ?_, ?_, ?_⟩
      · intro id hid
        rw [setAllD_getRecord_mem actionable m Status.attempting "" now id hid]
      · simp only [unitAction, hempF, Bool.false_eq_true, if_false, bind, Except.bind, h1, h2,
          exceptOk]
        rfl
      · intro id hid
        rw [setAllD_getRecord_mem actionable _ Status.failed e now id hid]
        rfl
      · intro id hid
        rw [setAllD_getRecord_not_mem actionable _ Status.failed e now id hid,
          setAllD_getRecord_not_mem actionable m Status.attempting "" now id hid]

/-- Witness for the amended C2 at a concrete unit, ledger and remote
outcome. -/
theorem unitAction_atomic_on_actionable_witness :
    (∀ id ∈ ["python_coder", "api_notebook_creator", "code_uploader"],
      (kaggleRegistry.find? (fun b => b.id == id)).isSome = true) ∧
    ((["python_coder", "api_notebook_creator", "code_uploader"].filter
        (fun b => shouldAttempt [] b) = [] →
      unitAction kaggleRegistry ["python_coder", "api_notebook_creator", "code_uploader"]
        (fun slug => "notebook=" ++ slug) (Except.ok "s") [] 1 = .ok (true, [])) ∧
    (["python_coder", "api_notebook_creator", "code_uploader"].filter
        (fun b => shouldAttempt [] b) ≠ [] →
      ∃ m1 m2,
        setAllM kaggleRegistry []
          (["python_coder", "api_notebook_creator", "code_uploader"].filter
            (fun b => shouldAttempt [] b)) "attempting" "" 1 = .ok m1 ∧
        (∀ id ∈ ["python_coder", "api_notebook_creator", "code_uploader"].filter
            (fun b => shouldAttempt [] b),
          (getRecord m1 id).status = Status.attempting) ∧
        unitAction kaggleRegistry ["python_coder", "api_notebook_creator", "code_uploader"]
          (fun slug => "notebook=" ++ slug) (Except.ok "s") [] 1
          = .ok (exceptOk (Except.ok (ε := String) "s"), m2) ∧
        (∀ id ∈ ["python_coder", "api_notebook_creator", "code_uploader"].filter
            (fun b => shouldAttempt [] b),
          (getRecord m2 id).status =
            if exceptOk (Except.ok (ε := String) "s") then Status.earned
            else Status.failed) ∧
        (∀ id, id ∉ ["python_coder", "api_notebook_creator", "code_uploader"].filter
            (fun b => shouldAttempt [] b) →
          getRecord m2 id = getRecord [] id))) :=
  ⟨by decide,
    unitAction_atomic_on_actionable kaggleRegistry
      ["python_coder", "api_notebook_creator", "code_uploader"]
      (fun slug => "notebook=" ++ slug) (Except.ok "s") [] 1 (by decide)⟩

/-- Modelled from the spec: badge_registry.get_badges_by_phase (spec
section 4.1; badge_registry.py is not under src/): the registry entries of
the given phase, in registry order. -/
def getBadgesByPhase (registry : List BadgeDef) (phase : Int) : List BadgeDef :=
  registry.filter (fun b => b.phase == phase)

/-- Embedding of orchestrator.dry_run (orchestrator.py lines 26-39): for
each requested phase compute the actionable badges by filtering
get_badges_by_phase with should_attempt, skip phases whose actionable list
is empty, and collect the printed preview (phase paired with the listed
badge ids) plus the printed total.  The source body performs no remote
call and mutates no status, so the embedding returns the ledger unchanged
together with an empty remote-call list. -/
def dryRun (registry : List BadgeDef) (m : ProgressMap) (phases : List Int) :
    List (Int × List String) × Nat × ProgressMap × List String :=
  let entries := phases.foldr
    (fun p acc =>
      let actionable := ((getBadgesByPhase registry p).filter
        (fun b => shouldAttempt m b.id)).map (fun b => b.id)
      if actionable.isEmpty then acc else (p, actionable) :: acc) []
  (entries, (entries.map (fun e => e.2.length)).sum, m, [])

/-- The badge ids a dry-run preview lists for one phase (empty when the
phase does not appear in the preview). -/
def listedIds (entries : List (Int × List String)) (p : Int) : List String :=
  (entries.lookup p).getD []

/-- Result of one live phase run: the counts run_phase returns, the ledger
after the phase, the remote calls made, the badge ids the phase treated as
actionable, and whether a phase action function was imported and
invoked. -/
structure RunPhaseResult where
  attempted : Nat
  succeeded : Nat
  finalMap : ProgressMap
  remoteCalls : List String
  actionable : List String
  invokedAction : Bool
deriving DecidableEq, Repr

/-- Embedding of orchestrator.run_phase (orchestrator.py lines 42-78):
compute the actionable subset by filtering get_badges_by_phase with
should_attempt; if it is empty return (0, 0) at once, importing nothing
and invoking nothing.  Otherwise resolve the phase module (phases 1-5
resolve to a phase action, modelled as an oracle from the ledger to
counts, new ledger and remote calls; phases -6..0 hit the ImportError
fallback chain and its final Unknown-phase branch, returning (0, 0);
any other phase raises IndexError out of the dynamic module-name
construction).  The phase action oracle stands for the run() function of
the phase module; phase_2/4/5 modules are repository files not under
src/. -/
def runPhase (registry : List BadgeDef)
    (phaseAction : ProgressMap → (Nat × Nat) × ProgressMap × List String)
    (p : Int) (m : ProgressMap) : Except String RunPhaseResult :=
  let actionable := ((getBadgesByPhase registry p).filter
    (fun b => shouldAttempt m b.id)).map (fun b => b.id)
  if actionable.isEmpty then
    .ok ⟨0, 0, m, [], actionable, false⟩
  else if 1 ≤ p ∧ p ≤ 5 then
    let r := phaseAction m
    .ok ⟨r.1.1, r.1.2, r.2.1, r.2.2, actionable, true⟩
  else if -6 ≤ p ∧ p ≤ 0 then
    .ok ⟨0, 0, m, [], actionable, false⟩
  else
    .error "IndexError: list index out of range"

/-- C4: if the actionable subset of a phase is empty, run_phase returns
(0, 0) without importing or invoking any phase action function, without
any remote call, and with the ledger untouched. -/
theorem runPhase_short_circuit (registry : List BadgeDef)
    (phaseAction : ProgressMap → (Nat × Nat) × ProgressMap × List String)
    (p : Int) (m : ProgressMap)
    (h : (getBadgesByPhase registry p).filter (fun b => shouldAttempt m b.id) = []) :
    runPhase registry phaseAction p m = .ok ⟨0, 0, m, [], [], false⟩ := by
  simp [runPhase, h]

/-- Witness for C4: phase 2 of the modelled registry has no badges, so a
fresh ledger has an empty actionable subset and the phase short-circuits
even under an action oracle that would report work and remote calls. -/
theorem runPhase_short_circuit_witness :
    (getBadgesByPhase kaggleRegistry 2).filter (fun b => shouldAttempt [] b.id) = [] ∧
    runPhase kaggleRegistry (fun m => ((9, 9), m, ["kernels push"])) 2 []
      = .ok ⟨0, 0, [], [], [], false⟩ :=
  ⟨by decide, runPhase_short_circuit kaggleRegistry _ 2 [] (by decide)⟩

theorem dryRun_entries_lookup_none (registry : List BadgeDef) (m : ProgressMap)
    (phases : List Int) (p : Int)
    (h : ((getBadgesByPhase registry p).filter (fun b => shouldAttempt m b.id)).map
      (fun b => b.id) = []) :
    List.lookup p (dryRun registry m phases).1 = none := by
  induction phases with
  | nil => rfl
  | cons q tl ih =>
    show List.lookup p
      (if (((getBadgesByPhase registry q).filter (fun b => shouldAttempt m b.id)).map
          (fun b => b.id)).isEmpty
        then (dryRun registry m tl).1
        else (q, ((getBadgesByPhase registry q).filter (fun b => shouldAttempt m b.id)).map
          (fun b => b.id)) :: (dryRun registry m tl).1) = none
    by_cases hq : (((getBadgesByPhase registry q).filter (fun b => shouldAttempt m b.id)).map
        (fun b => b.id)).isEmpty = true
    · rw [if_pos hq]
      exact ih
    · rw [if_neg (by simpa using hq)]
      have hpq : p ≠ q := by
        intro he
        subst he
        simp [h] at hq
      rw [List.lookup]
      have : (p == q) = false := by simp [hpq]
      rw [this]
      exact ih

theorem dryRun_entries_lookup_mem (registry : List BadgeDef) (m : ProgressMap)
    (phases : List Int) (p : Int) (hp : p ∈ phases) :
    List.lookup p (dryRun registry m phases).1 =
      (if ((getBadgesByPhase registry p).filter (fun b => shouldAttempt m b.id)).map
          (fun b => b.id) = [] then none
        else some (((getBadgesByPhase registry p).filter (fun b => shouldAttempt m b.id)).map
          (fun b => b.id))) := by
  induction phases with
  | nil => exact absurd hp (List.not_mem_nil p)
  | cons q tl ih =>
    show List.lookup p
      (if (((getBadgesByPhase registry q).filter (fun b => shouldAttempt m b.id)).map
          (fun b => b.id)).isEmpty
        then (dryRun registry m tl).1
        else (q, ((getBadgesByPhase registry q).filter (fun b => shouldAttempt m b.id)).map
          (fun b => b.id)) :: (dryRun registry m tl).1) = _
    by_cases hpq : p = q
    · subst hpq
      by_cases hemp : ((getBadgesByPhase registry p).filter
          (fun b => shouldAttempt m b.id)).map (fun b => b.id) = []
      · rw [if_pos (by simp [hemp]), if_pos hemp]
        exact dryRun_entries_lookup_none registry m tl p hemp
      · rw [if_neg (by simpa using hemp), if_neg hemp]
        rw [List.lookup]
        simp
    · have hp2 : p ∈ tl := by
        rcases List.mem_cons.mp hp with h1 | h1
        · exact absurd h1 hpq
        · exact h1
      by_cases hemp : (((getBadgesByPhase registry q).filter
          (fun b => shouldAttempt m b.id)).map (fun b => b.id)).isEmpty = true
      · rw [if_pos hemp]
        exact ih hp2
      · rw [if_neg (by simpa using hemp), List.lookup]
        have : (p == q) = false := by simp [hpq]
        rw [this]
        exact ih hp2

/-- C3: for every requested phase, the badge ids the dry-run preview lists
for that phase are exactly the ids the live run_phase path treats as
actionable (both are get_badges_by_phase filtered through should_attempt),
and dry-run performs no remote call and no status mutation.  The registry
hypothesis (every badge sits in a phase 1-5, spec section 3 invariant)
keeps the live path away from the unreachable dynamic-import IndexError. -/
theorem dryRun_fidelity (registry : List BadgeDef)
    (hphase : ∀ b ∈ registry, 1 ≤ b.phase ∧ b.phase ≤ 5)
    (m : ProgressMap) (phases : List Int) (p : Int) (hp : p ∈ phases)
    (phaseAction : ProgressMap → (Nat × Nat) × ProgressMap × List String) :
    ∃ r : RunPhaseResult, runPhase registry phaseAction p m = .ok r ∧
      listedIds (dryRun registry m phases).1 p = r.actionable ∧
      (dryRun registry m phases).2.2.1 = m ∧
      (dryRun registry m phases).2.2.2 = [] := by
  by_cases hemp : ((getBadgesByPhase registry p).filter
      (fun b => shouldAttempt m b.id)).map (fun b => b.id) = []
  · refine ⟨⟨0, 0, m, [], ((getBadgesByPhase registry p).filter
      (fun b => shouldAttempt m b.id)).map (fun b => b.id), false⟩, ?_, ?_, rfl, rfl⟩
    · simp only [runPhase, hemp]
      rfl
    · rw [listedIds, dryRun_entries_lookup_mem registry m phases p hp, if_pos hemp, hemp]
      rfl
  · have hbadge : ∃ b ∈ registry, b.phase = p := by
      rcases List.exists_mem_of_ne_nil
        (((getBadgesByPhase registry p).filter (fun b => shouldAttempt m b.id)).map
          (fun b => b.id)) hemp with ⟨id0, hid0⟩
      rcases List.mem_map.mp hid0 with ⟨b, hb, _⟩
      have hb2 : b ∈ getBadgesByPhase registry p := List.mem_of_mem_filter hb
      have hb3 : b ∈ registry ∧ b.phase = p := by simpa [getBadgesByPhase] using hb2
      exact ⟨b, hb3.1, hb3.2⟩
    rcases hbadge with ⟨b, hbmem, hbp⟩
    have hrange : 1 ≤ p ∧ p ≤ 5 := hbp ▸ hphase b hbmem
    refine ⟨⟨(phaseAction m).1.1, (phaseAction m).1.2, (phaseAction m).2.1,
      (phaseAction m).2.2, ((getBadgesByPhase registry p).filter
        (fun b => shouldAttempt m b.id)).map (fun b => b.id), true⟩, ?_, ?_, rfl, rfl⟩
    · rw [runPhase]
      rw [if_neg (by simpa using hemp), if_pos hrange]
    · rw [listedIds, dryRun_entries_lookup_mem registry m phases p hp, if_neg hemp]
      rfl

/-- Witness for C3: a ledger in which python_coder is earned; dry-run for
phase 1 lists exactly the remaining actionable phase-1 ids, matching the
live actionable set, and touches nothing. -/
theorem dryRun_fidelity_witness :
    (∀ b ∈ kaggleRegistry, 1 ≤ b.phase ∧ b.phase ≤ 5) ∧ (1 : Int) ∈ [(1 : Int), 3] ∧
    ∃ r : RunPhaseResult,
      runPhase kaggleRegistry (fun m => ((12, 11), m, ["kernels push"])) 1
        [("python_coder", (⟨Status.earned, "", 0⟩ : ProgressRecord))] = .ok r ∧
      listedIds (dryRun kaggleRegistry
        [("python_coder", (⟨Status.earned, "", 0⟩ : ProgressRecord))] [(1 : Int), 3]).1 1
        = r.actionable ∧
      (dryRun kaggleRegistry
        [("python_coder", (⟨Status.earned, "", 0⟩ : ProgressRecord))] [(1 : Int), 3]).2.2.1
        = [("python_coder", (⟨Status.earned, "", 0⟩ : ProgressRecord))] ∧
      (dryRun kaggleRegistry
        [("python_coder", (⟨Status.earned, "", 0⟩ : ProgressRecord))] [(1 : Int), 3]).2.2.2
        = [] :=
  ⟨by decide, by decide,
    dryRun_fidelity kaggleRegistry (by decide) _ [(1 : Int), 3] 1 (by decide) _⟩

/-- One iteration of the phase loop of orchestrator.main (orchestrator.py
lines 141-149): consult run_phase for the phase inside a try/except; an ok
outcome adds its counts to the running totals; an exception leaves the
totals unchanged, appends a printed diagnostic (phase and error text,
printed with a stack trace in the source) and the loop continues.  The
accumulator is (totals, phases invoked so far, diagnostics printed so
far). -/
def mainLoopStep (res : Int → Except String (Nat × Nat))
    (acc : (Nat × Nat) × List Int × List (Int × String)) (p : Int) :
    (Nat × Nat) × List Int × List (Int × String) :=
  match res p with
  | .ok c => ((acc.1.1 + c.1, acc.1.2 + c.2), acc.2.1 ++ [p], acc.2.2)
  | .error e => (acc.1, acc.2.1 ++ [p], acc.2.2 ++ [(p, e)])

/-- Embedding of the phase loop of orchestrator.main over the requested
phases, starting from zero totals. -/
def mainLoop (res : Int → Except String (Nat × Nat)) (phases : List Int) :
    (Nat × Nat) × List Int × List (Int × String) :=
  phases.foldl (mainLoopStep res) ((0, 0), [], [])

/-- The attempted count a phase contributes to the totals: its run_phase
count on success, zero when run_phase raised. -/
def phaseAttempted (res : Int → Except String (Nat × Nat)) (p : Int) : Nat :=
  match res p with
  | .ok c => c.1
  | .error _ => 0

/-- The succeeded count a phase contributes to the totals: its run_phase
count on success, zero when run_phase raised. -/
def phaseSucceeded (res : Int → Except String (Nat × Nat)) (p : Int) : Nat :=
  match res p with
  | .ok c => c.2
  | .error _ => 0

/-- The diagnostics a phase contributes: none on success, one printed
(phase, error) line when run_phase raised. -/
def phaseDiag (res : Int → Except String (Nat × Nat)) (p : Int) : List (Int × String) :=
  match res p with
  | .ok _ => []
  | .error e => [(p, e)]

theorem mainLoop_foldl (res : Int → Except String (Nat × Nat)) (phases : List Int)
    (acc : (Nat × Nat) × List Int × List (Int × String)) :
    phases.foldl (mainLoopStep res) acc =
      ((acc.1.1 + (phases.map (phaseAttempted res)).sum,
        acc.1.2 + (phases.map (phaseSucceeded res)).sum),
       acc.2.1 ++ phases,
       acc.2.2 ++ (phases.map (phaseDiag res)).flatten) := by
  induction phases generalizing acc with
  | nil => simp
  | cons q tl ih =>
    rw [List.foldl_cons, ih]
    cases hq : res q with
    | ok c =>
      simp [mainLoopStep, hq, phaseAttempted, phaseSucceeded, phaseDiag, Nat.add_assoc]
    | error e =>
      simp [mainLoopStep, hq, phaseAttempted, phaseSucceeded, phaseDiag]

/-- C5: phase-error resilience of the orchestrator's main loop.  For every
sequence of requested phases and every pattern of run_phase outcomes:
every requested phase is invoked, in order, even after an earlier phase
raised; the aggregated totals are the sums of the per-phase contributions,
where a raising phase contributes zero attempted and zero succeeded; and
each raising phase produces exactly one printed diagnostic carrying its
error. -/
theorem mainLoop_phase_error_resilience (res : Int → Except String (Nat × Nat))
    (phases : List Int) :
    (mainLoop res phases).2.1 = phases ∧
    (mainLoop res phases).1.1 = (phases.map (phaseAttempted res)).sum ∧
    (mainLoop res phases).1.2 = (phases.map (phaseSucceeded res)).sum ∧
    (mainLoop res phases).2.2 = (phases.map (phaseDiag res)).flatten ∧
    (∀ p e, res p = .error e →
      phaseAttempted res p = 0 ∧ phaseSucceeded res p = 0 ∧ phaseDiag res p = [(p, e)]) := by
  refine ⟨?_, ?_, ?_, ?_, ?_⟩
  · rw [mainLoop, mainLoop_foldl]
    simp
  · rw [mainLoop, mainLoop_foldl]
    simp
  · rw [mainLoop, mainLoop_foldl]
    simp
  · rw [mainLoop, mainLoop_foldl]
    simp
  · intro p e hp
    exact ⟨by simp [phaseAttempted, hp], by simp [phaseSucceeded, hp],
      by simp [phaseDiag, hp]⟩

/-- The numeric value of a decimal digit character, none otherwise. -/
def digitVal (c : Char) : Option Nat :=
  if '0' ≤ c ∧ c ≤ '9' then some (c.toNat - '0'.toNat) else none

/-- Accumulate a decimal digit string left to right; none on any
non-digit. -/
def digitsVal : List Char → Nat → Option Nat
  | [], acc => some acc
  | c :: cs, acc =>
    match digitVal c with
    | some d => digitsVal cs (acc * 10 + d)
    | none => none

/-- Model of Python's int() applied to a CLI string: an optional sign
followed by at least one decimal digit; anything else raises ValueError
(here: none).  Python's tolerance for surrounding whitespace and
underscore separators is not modelled; the inputs the claims exercise
("1".."5", "7", "all", non-numeric strings) parse identically. -/
def parseInt (s : String) : Option Int :=
  match s.toList with
  | [] => none
  | '-' :: cs => if cs.isEmpty then none else (digitsVal cs 0).map (fun n => -(n : Int))
  | '+' :: cs => if cs.isEmpty then none else (digitsVal cs 0).map (fun n => (n : Int))
  | cs => (digitsVal cs 0).map (fun n => (n : Int))

/-- Embedding of orchestrator.main (orchestrator.py lines 81-155) from the
parsed CLI flags, the credential environment and the per-phase run_phase
outcome oracle to the process exit code and the aggregated totals.
Control flow follows the source: --status prints the table and returns
(exit 0); no --phase prints help and returns (exit 0); a --phase value of
"all" selects phases 1-5, any other value must parse as an integer, else
sys.exit(1); --dry-run previews and returns (exit 0); then missing
credentials or an undeterminable username give sys.exit(1); otherwise the
phase loop runs to completion and main returns normally (exit 0) whatever
the per-phase outcomes. -/
def mainRun (phaseArg : Option String) (statusFlag dryRunFlag credsOk : Bool)
    (username : String) (res : Int → Except String (Nat × Nat)) :
    Nat × (Nat × Nat) :=
  if statusFlag then (0, (0, 0))
  else
    match phaseArg with
    | none => (0, (0, 0))
    | some s =>
      match (if s = "all" then some [(1 : Int), 2, 3, 4, 5] else
        match parseInt s with
        | some n => some [n]
        | none => none) with
      | none => (1, (0, 0))
      | some phases =>
        if dryRunFlag then (0, (0, 0))
        else if !credsOk then (1, (0, 0))
        else if username = "" then (1, (0, 0))
        else (0, (mainLoop res phases).1)

/-- C6 counterexample: with the perfectly valid CLI input --phase 1 but
credentials not configured, the orchestrator exits with code 1 — so exit
code 1 is not reserved to invalid CLI input. -/
theorem mainRun_exit1_without_invalid_input :
    mainRun (some "1") false false false "user" (fun _ => .ok (0, 0)) = (1, (0, 0)) ∧
    "1" ∈ ["1", "2", "3", "4", "5", "all"] := by
  constructor
  · rfl
  · decide

/-- C6 amended: the orchestrator exits 0 on normal completion whatever the
per-badge and per-phase outcomes (the exit code never depends on the
run_phase outcome oracle), and exits 1 exactly when the --phase value is
neither "all" nor an integer string, or when the run proceeds past the
dry-run check and credentials are missing or the username is empty.  (A
--phase integer outside 1-5, e.g. 7, is accepted and exits 0.) -/
theorem mainRun_exit_code_characterization (phaseArg : Option String)
    (statusFlag dryRunFlag credsOk : Bool) (username : String)
    (res res2 : Int → Except String (Nat × Nat)) :
    ((mainRun phaseArg statusFlag dryRunFlag credsOk username res).1 = 1 ↔
      (statusFlag = false ∧ ∃ s, phaseArg = some s ∧ s ≠ "all" ∧ parseInt s = none) ∨
      (statusFlag = false ∧ dryRunFlag = false ∧ (credsOk = false ∨ username = "") ∧
        ∃ s, phaseArg = some s ∧ (s = "all" ∨ (parseInt s).isSome = true))) ∧
    (mainRun phaseArg statusFlag dryRunFlag credsOk username res).1 =
      (mainRun phaseArg statusFlag dryRunFlag credsOk username res2).1 := by
  cases statusFlag with
  | true => simp [mainRun]
  | false =>
    cases phaseArg with
    | none => simp [mainRun]
    | some s =>
      by_cases hall : s = "all"
      · subst hall
        have htip : parseInt "all" = none := by decide
        cases dryRunFlag with
        | true => simp [mainRun]
        | false =>
          cases credsOk with
          | false => simp [mainRun]
          | true =>
            by_cases hu : username = "" <;> simp [mainRun, hu, htip]
      · cases hti : parseInt s with
        | none =>
          simp [mainRun, hall, hti]
        | some n =>
          cases dryRunFlag with
          | true => simp [mainRun, hall, hti]
          | false =>
            cases credsOk with
            | false => simp [mainRun, hall, hti]
            | true =>
              by_cases hu : username = "" <;> simp [mainRun, hall, hti, hu]

/-- Prefix test on character lists (the building block of the substring
test Python's in-operator performs). -/
def isPrefixList : List Char → List Char → Bool
  | [], _ => true
  | _ :: _, [] => false
  | a :: as, b :: bs => a == b && isPrefixList as bs

/-- Substring test on character lists: Python's needle in haystack. -/
def containsSubList (needle : List Char) : List Char → Bool
  | [] => needle.isEmpty
  | c :: tl => isPrefixList needle (c :: tl) || containsSubList needle tl

/-- Whitespace trimming on character lists (Python str.strip for the
common whitespace characters). -/
def trimList (cs : List Char) : List Char :=
  ((cs.dropWhile Char.isWhitespace).reverse.dropWhile Char.isWhitespace).reverse

/-- The status text _poll_kernel inspects: result.stdout.strip().lower()
(phase_3_pipeline.py line 35). -/
def statusText (s : String) : List Char :=
  (trimList s.toList).map Char.toLower

/-- Test performed first in the poll loop (phase_3_pipeline.py line 38):
"complete" in status_text. -/
def hasComplete (s : String) : Bool :=
  containsSubList "complete".toList (statusText s)

/-- Test performed second in the poll loop (phase_3_pipeline.py line 40):
"error" in status_text or "cancel" in status_text. -/
def hasErrorOrCancel (s : String) : Bool :=
  containsSubList "error".toList (statusText s) ||
    containsSubList "cancel".toList (statusText s)

/-- The while-loop of _poll_kernel (phase_3_pipeline.py lines 33-44).
Arguments after the stdout oracle and the fixed interval/timeout: the
fuel (a bound on remaining iterations, realizing termination: each
iteration grows elapsed by interval >= 1 while elapsed < timeout, so
timeout bounds the iteration count and the fuel branch is unreachable
from pollKernel when 0 < interval), the index of the next status query,
and the elapsed counter.  Returns the boolean _poll_kernel returns,
paired with the number of status queries made. -/
def pollAux (status : Nat → String) (interval timeout : Nat) :
    Nat → Nat → Nat → Bool × Nat
  | fuel, k, elapsed =>
    if elapsed < timeout then
      match fuel with
      | 0 => (false, k)
      | fuel' + 1 =>
        if hasComplete (status k) then (true, k + 1)
        else if hasErrorOrCancel (status k) then (false, k + 1)
        else pollAux status interval timeout fuel' (k + 1) (elapsed + interval)
    else (false, k)

/-- Embedding of phase_3_pipeline._poll_kernel (lines 28-47): poll the
kernel status (an oracle from the query index to the stdout text) while
elapsed < timeout, returning true on "complete" in the text, false at
once on "error"/"cancel", sleeping interval and adding it to elapsed
otherwise, and false when the timeout is exhausted.  The result is paired
with the number of status queries performed. -/
def pollKernel (status : Nat → String) (timeout interval : Nat) : Bool × Nat :=
  pollAux status interval timeout timeout 0 0

theorem pollAux_count_le (status : Nat → String) (interval timeout : Nat)
    (hi : 0 < interval) :
    ∀ fuel k elapsed, (pollAux status interval timeout fuel k elapsed).2 ≤
      k + (timeout - elapsed + interval - 1) / interval := by
  intro fuel
  induction fuel with
  | zero =>
    intro k elapsed
    rw [pollAux]
    by_cases he : elapsed < timeout
    · rw [if_pos he]
      exact Nat.le_add_right k _
    · rw [if_neg he]
      exact Nat.le_add_right k _
  | succ fuel' ih =>
    intro k elapsed
    rw [pollAux]
    by_cases he : elapsed < timeout
    · rw [if_pos he]
      have hd1 : 1 ≤ timeout - elapsed := by omega
      have hone : 1 ≤ (timeout - elapsed + interval - 1) / interval := by
        rw [Nat.one_le_div_iff hi]
        omega
      by_cases hc : hasComplete (status k) = true
      · simp only [hc, if_true]
        omega
      · rw [if_neg hc]
        by_cases hec : hasErrorOrCancel (status k) = true
        · simp only [hec, if_true]
          omega
        · rw [if_neg hec]
          have hrec := ih (k + 1) (elapsed + interval)
          have hstep : (timeout - (elapsed + interval) + interval - 1) / interval + 1 ≤
              (timeout - elapsed + interval - 1) / interval := by
            by_cases hsmall : timeout - elapsed ≤ interval
            · have h0 : timeout - (elapsed + interval) = 0 := by omega
              rw [h0]
              have hz : (0 + interval - 1) / interval = 0 :=
                Nat.div_eq_of_lt (by omega)
              rw [hz]
              omega
            · have he1 : timeout - (elapsed + interval) + interval - 1 =
                  timeout - elapsed - 1 := by omega
              have he2 : timeout - elapsed + interval - 1 =
                  (timeout - elapsed - 1) + interval := by omega
              rw [he1, he2, Nat.add_div_right _ hi]
          omega
    · rw [if_neg he]
      exact Nat.le_add_right k _

theorem pollKernel_reach (status : Nat → String) (timeout interval : Nat)
    (hi : 0 < interval) :
    ∀ k, (∀ j, j < k → j * interval < timeout ∧ hasComplete (status j) = false ∧
        hasErrorOrCancel (status j) = false) →
      pollKernel status timeout interval =
        pollAux status interval timeout (timeout - k) k (k * interval) := by
  intro k
  induction k with
  | zero =>
    intro _
    simp [pollKernel]
  | succ k' ih =>
    intro h
    have hk' := ih (fun j hj => h j (Nat.lt_succ_of_lt hj))
    rcases h k' (Nat.lt_succ_self k') with ⟨helap, hc, hec⟩
    have hkt : k' < timeout := by
      have : k' ≤ k' * interval := Nat.le_mul_of_pos_right k' hi
      omega
    have hfuel : timeout - k' = (timeout - (k' + 1)) + 1 := by omega
    rw [hk', hfuel, pollAux, if_pos helap]
    simp only [hc, Bool.false_eq_true, if_false, hec]
    rw [Nat.succ_mul]

/-- C7 amended: for every status oracle, timeout and poll interval with
interval > 0, _poll_kernel makes at most ceil(timeout/interval) status
queries; it returns true as soon as one query's text contains "complete";
it returns false immediately, with no further polls, when a query's text
contains "error" or "cancel" but not "complete" (the complete test runs
first in the loop body, so it takes precedence); and it returns false
after exactly ceil(timeout/interval) queries when no query before the
timeout contains any of the three markers. -/
theorem pollKernel_spec (status : Nat → String) (timeout interval : Nat)
    (hi : 0 < interval) :
    (pollKernel status timeout interval).2 ≤ (timeout + interval - 1) / interval ∧
    (∀ k, (∀ j, j < k → hasComplete (status j) = false ∧
        hasErrorOrCancel (status j) = false) →
      k * interval < timeout →
      (hasComplete (status k) = true →
        pollKernel status timeout interval = (true, k + 1)) ∧
      (hasComplete (status k) = false → hasErrorOrCancel (status k) = true →
        pollKernel status timeout interval = (false, k + 1))) ∧
    ((∀ j, j * interval < timeout → hasComplete (status j) = false ∧
        hasErrorOrCancel (status j) = false) →
      pollKernel status timeout interval =
        (false, (timeout + interval - 1) / interval)) := by
  refine ⟨?_, ?_, ?_⟩
  · have h := pollAux_count_le status interval timeout hi timeout 0 0
    simpa [pollKernel] using h
  · intro k hneu hkt
    have hreach := pollKernel_reach status timeout interval hi k
      (fun j hj => ⟨by
        have hji : j * interval < k * interval :=
          Nat.mul_lt_mul_of_lt_of_le hj (Nat.le_refl interval) hi
        omega,
        (hneu j hj).1, (hneu j hj).2⟩)
    have hfuel : timeout - k = (timeout - (k + 1)) + 1 := by
      have : k ≤ k * interval := Nat.le_mul_of_pos_right k hi
      omega
    constructor
    · intro hc
      rw [hreach, hfuel, pollAux, if_pos hkt, hc]
      rw [if_pos rfl]
    · intro hc hec
      rw [hreach, hfuel, pollAux, if_pos hkt]
      simp only [hc, Bool.false_eq_true, if_false, hec, if_true]
  · intro hall
    have hN : ∀ j, j < (timeout + interval - 1) / interval → j * interval < timeout := by
      intro j hj
      have h1 : j + 1 ≤ (timeout + interval - 1) / interval := hj
      have h2 : (j + 1) * interval ≤ timeout + interval - 1 :=
        (Nat.le_div_iff_mul_le hi).mp h1
      have h3 : (j + 1) * interval = j * interval + interval := Nat.succ_mul j interval
      omega
    have hreach := pollKernel_reach status timeout interval hi
      ((timeout + interval - 1) / interval)
      (fun j hj => ⟨hN j hj, (hall j (hN j hj)).1, (hall j (hN j hj)).2⟩)
    have hge : ¬ ((timeout + interval - 1) / interval * interval < timeout) := by
      intro hlt
      have h4 : timeout + interval - 1 <
          (timeout + interval - 1) / interval * interval + interval :=
        Nat.lt_div_mul_add hi
      omega
    rw [hreach, pollAux.eq_def]
    simp [hge]

/-- Witness for the amended C7 at the source defaults (timeout 600,
interval 30) and a status oracle that always reports a running kernel. -/
theorem pollKernel_spec_witness :
    0 < 30 ∧
    ((pollKernel (fun _ => "running") 600 30).2 ≤ (600 + 30 - 1) / 30 ∧
    (∀ k, (∀ j, j < k → hasComplete ((fun _ => "running") j) = false ∧
        hasErrorOrCancel ((fun _ => "running") j) = false) →
      k * 30 < 600 →
      (hasComplete ((fun _ => "running") k) = true →
        pollKernel (fun _ => "running") 600 30 = (true, k + 1)) ∧
      (hasComplete ((fun _ => "running") k) = false →
        hasErrorOrCancel ((fun _ => "running") k) = true →
        pollKernel (fun _ => "running") 600 30 = (false, k + 1))) ∧
    ((∀ j, j * 30 < 600 → hasComplete ((fun _ => "running") j) = false ∧
        hasErrorOrCancel ((fun _ => "running") j) = false) →
      pollKernel (fun _ => "running") 600 30 = (false, (600 + 30 - 1) / 30))) :=
  ⟨by decide, pollKernel_spec (fun _ => "running") 600 30 (by decide)⟩

/-- C7 counterexample: a first status text containing both "error" and
(inside "incomplete") the substring "complete": the loop's complete test
runs first, so _poll_kernel returns true instead of treating the
error-marked text as a failure with no further polls. -/
theorem pollKernel_error_text_can_return_true :
    hasErrorOrCancel "error: run incomplete" = true ∧
    pollKernel (fun _ => "error: run incomplete") 600 30 = (true, 1) := by
  constructor
  · decide
  · rfl

/-- A completed subprocess as run_kaggle_cli sees it (utils.py line 62):
exit code and captured output. -/
structure CompletedProcess where
  returncode : Int
  stdout : String
  stderr : String
deriving DecidableEq, Repr

/-- The observable effects run_kaggle_cli performs around the subprocess
call: printed lines and blocking sleeps (seconds). -/
inductive CliEvent where
  | print (s : String)
  | sleep (seconds : Nat)
deriving DecidableEq, Repr

/-- The raised subprocess.CalledProcessError (utils.py line 65). -/
structure CalledProcessError where
  returncode : Int
  stdout : String
  stderr : String
deriving DecidableEq, Repr

/-- API_DELAY (utils.py line 20): seconds to sleep between API calls. -/
def API_DELAY : Nat := 5

/-- Embedding of utils.run_kaggle_cli (utils.py lines 57-67): print the
command line, run the subprocess (an oracle giving the completed
process); if check is set and the exit code is non-zero, print the stderr
and raise CalledProcessError — the raise happens before the sleep
statement, so that path performs no sleep; otherwise sleep API_DELAY
seconds and return the result.  The event list records the prints and
sleeps in order. -/
def runKaggleCli (cmd : List String) (result : CompletedProcess) (check : Bool) :
    Except CalledProcessError CompletedProcess × List CliEvent :=
  if check && result.returncode != 0 then
    (.error ⟨result.returncode, result.stdout, result.stderr⟩,
      [.print (String.intercalate " " cmd), .print result.stderr])
  else
    (.ok result, [.print (String.intercalate " " cmd), .sleep API_DELAY])

/-- Number of sleep events in an event list. -/
def sleepCount (evs : List CliEvent) : Nat :=
  (evs.filter (fun e => match e with | .sleep _ => true | .print _ => false)).length

/-- C8 counterexample: with check set and a non-zero exit code,
run_kaggle_cli raises CalledProcessError before reaching the sleep, so
this invocation of the external CLI is not followed by any sleep. -/
theorem runKaggleCli_no_sleep_on_checked_failure :
    sleepCount (runKaggleCli ["kernels", "push"] ⟨1, "", "err"⟩ true).2 = 0 ∧
    exceptOk (runKaggleCli ["kernels", "push"] ⟨1, "", "err"⟩ true).1 = false := by
  constructor
  · rfl
  · rfl

/-- C8 amended: run_kaggle_cli performs exactly one blocking sleep of
API_DELAY seconds, placed after the printed CLI invocation, on every path
on which it returns to the caller (check unset, or exit code zero); on
the path where check is set and the exit code is non-zero, the
CalledProcessError is raised before the sleep statement, so that path
performs no sleep. -/
theorem runKaggleCli_sleep_on_every_return (cmd : List String)
    (result : CompletedProcess) (check : Bool) :
    sleepCount (runKaggleCli cmd result check).2 =
      (if check && result.returncode != 0 then 0 else 1) ∧
    exceptOk (runKaggleCli cmd result check).1 =
      !(check && result.returncode != 0) ∧
    (runKaggleCli cmd result check).2 =
      (if check && result.returncode != 0 then
        [CliEvent.print (String.intercalate " " cmd), CliEvent.print result.stderr]
      else
        [CliEvent.print (String.intercalate " " cmd), CliEvent.sleep API_DELAY]) := by
  by_cases h : (check && result.returncode != 0) = true
  · refine ⟨?_, ?_, ?_⟩ <;> simp [runKaggleCli, h, sleepCount, exceptOk]
  · have h2 : (check && result.returncode != 0) = false := by
      cases hb : (check && result.returncode != 0) with
      | true => exact absurd hb h
      | false => rfl
    refine ⟨?_, ?_, ?_⟩ <;> simp [runKaggleCli, h2, sleepCount, exceptOk]

/-- Embedding of check_all_credentials._mask
(skills/kaggle/shared/check_all_credentials.py lines 50-56) over the
character list of the value: empty values and values of length at most
prefix_len + 4 mask to "****"; longer values keep their first prefix_len
and last 4 characters with '*' at every position in between (the Python
max(0, len - prefix_len - 4) is the truncated Nat subtraction). -/
def maskList (value : List Char) (prefixLen : Nat) : List Char :=
  if value.isEmpty then "****".toList
  else if value.length ≤ prefixLen + 4 then "****".toList
  else value.take prefixLen ++ List.replicate (value.length - prefixLen - 4) '*' ++
    value.drop (value.length - 4)

/-- The string-level _mask. -/
def mask (value : String) (prefixLen : Nat) : String :=
  String.mk (maskList value.toList prefixLen)

/-- C9: masking is noninterfering in the hidden middle: two equal-length
values longer than prefix_len + 4 that agree on their first prefix_len
and last 4 characters mask identically; the mask has the input's length
with '*' at every middle position; and every value of length at most
prefix_len + 4 (the empty string included) masks to exactly "****". -/
theorem mask_noninterference (v1 v2 : List Char) (prefixLen : Nat)
    (hlen : v1.length = v2.length)
    (hlong : prefixLen + 4 < v1.length)
    (hpre : v1.take prefixLen = v2.take prefixLen)
    (hsuf : v1.drop (v1.length - 4) = v2.drop (v2.length - 4)) :
    maskList v1 prefixLen = maskList v2 prefixLen ∧
    (maskList v1 prefixLen).length = v1.length ∧
    (∀ i, prefixLen ≤ i → i + 4 < v1.length →
      (maskList v1 prefixLen)[i]? = some '*') ∧
    (∀ w : List Char, w.length ≤ prefixLen + 4 →
      maskList w prefixLen = "****".toList) := by
  have hne1 : v1.isEmpty = false := by
    cases v1 with
    | nil => simp at hlong
    | cons a tl => rfl
  have hne2 : v2.isEmpty = false := by
    cases v2 with
    | nil =>
      exfalso
      rw [List.length_nil] at hlen
      omega
    | cons a tl => rfl
  have hgt1 : ¬ v1.length ≤ prefixLen + 4 := by omega
  have hgt2 : ¬ v2.length ≤ prefixLen + 4 := by omega
  have hmask1 : maskList v1 prefixLen =
      v1.take prefixLen ++ List.replicate (v1.length - prefixLen - 4) '*' ++
        v1.drop (v1.length - 4) := by
    rw [maskList, hne1]
    simp only [Bool.false_eq_true, if_false]
    rw [if_neg hgt1]
  refine ⟨?_, ?_, ?_, ?_⟩
  · rw [hmask1, maskList, hne2]
    simp only [Bool.false_eq_true, if_false]
    rw [if_neg hgt2, hpre, hsuf, hlen]
  · rw [hmask1]
    simp only [List.length_append, List.length_take, List.length_replicate,
      List.length_drop]
    omega
  · intro i hi1 hi2
    rw [hmask1, List.append_assoc]
    rw [List.getElem?_append_right (by simp; omega)]
    have hlt : i - (v1.take prefixLen).length <
        (List.replicate (v1.length - prefixLen - 4) '*').length := by
      simp only [List.length_take, List.length_replicate]
      omega
    rw [List.getElem?_append, if_pos hlt]
    have hj := hlt
    rw [List.length_replicate] at hj
    simp only [List.getElem?_replicate, List.length_take]
    rw [if_pos (by simp only [List.length_take] at hj; omega)]
  · intro w hw
    cases hempty : w.isEmpty with
    | true => rw [maskList, hempty, if_pos rfl]
    | false =>
      rw [maskList, hempty]
      simp only [Bool.false_eq_true, if_false]
      rw [if_pos hw]

/-- Witness for C9 at two concrete 10-character credentials that agree on
the first 2 and last 4 characters and differ in the hidden middle. -/
theorem mask_noninterference_witness :
    ("abcdefghij".toList.length = "abXYZWghij".toList.length ∧
      2 + 4 < "abcdefghij".toList.length ∧
      "abcdefghij".toList.take 2 = "abXYZWghij".toList.take 2 ∧
      "abcdefghij".toList.drop ("abcdefghij".toList.length - 4) =
        "abXYZWghij".toList.drop ("abXYZWghij".toList.length - 4)) ∧
    (maskList "abcdefghij".toList 2 = maskList "abXYZWghij".toList 2 ∧
      (maskList "abcdefghij".toList 2).length = "abcdefghij".toList.length ∧
      (∀ i, 2 ≤ i → i + 4 < "abcdefghij".toList.length →
        (maskList "abcdefghij".toList 2)[i]? = some '*') ∧
      (∀ w : List Char, w.length ≤ 2 + 4 → maskList w 2 = "****".toList)) :=
  ⟨⟨by decide, by decide, by decide, by decide⟩,
    mask_noninterference "abcdefghij".toList "abXYZWghij".toList 2
      (by decide) (by decide) (by decide) (by decide)⟩

/-- Python truthiness of an os.getenv result: set and non-empty. -/
def envTruthy : Option String → Bool
  | none => false
  | some s => !s.isEmpty

/-- Embedding of utils.check_credentials (utils.py lines 77-94): if the
kllm check_credentials.py script exists, its exit code decides; otherwise
the fallback checks the truthiness of KAGGLE_API_TOKEN, then of
KAGGLE_USERNAME and KAGGLE_KEY together, and finally falls back to the
mere existence of ~/.kaggle/kaggle.json.  The file is modelled as an
optional content string; the code consults only its existence (isSome)
and never reads the content. -/
def check_credentials (scriptExists : Bool) (scriptExitCode : Int)
    (token username key : Option String) (kaggleJson : Option String) : Bool :=
  if scriptExists then scriptExitCode == 0
  else if envTruthy token then true
  else if envTruthy username && envTruthy key then true
  else kaggleJson.isSome

/-- C10: in the fallback branch (the kllm script does not exist), with
KAGGLE_API_TOKEN unset/empty and KAGGLE_USERNAME, KAGGLE_KEY not both
set, check_credentials returns true iff ~/.kaggle/kaggle.json exists —
and it returns true for a file of any content whatsoever (empty or
malformed included), since the content is never read or validated. -/
theorem check_credentials_fallback_file_existence (scriptExitCode : Int)
    (token username key : Option String) (kaggleJson : Option String)
    (htok : envTruthy token = false)
    (hpair : (envTruthy username && envTruthy key) = false) :
    check_credentials false scriptExitCode token username key kaggleJson
      = kaggleJson.isSome ∧
    (∀ content : String,
      check_credentials false scriptExitCode token username key (some content) = true) := by
  constructor
  · simp [check_credentials, htok, hpair]
  · intro content
    simp [check_credentials, htok, hpair]

/-- Witness for C10: username set but key unset, token unset; the check
reduces to file existence, and an empty-content file passes. -/
theorem check_credentials_fallback_witness :
    (envTruthy none = false ∧
      (envTruthy (some "user") && envTruthy none) = false) ∧
    (check_credentials false 0 none (some "user") none (some "")
        = (some "").isSome ∧
      (∀ content : String,
        check_credentials false 0 none (some "user") none (some content) = true)) :=
  ⟨⟨by decide, by decide⟩,
    check_credentials_fallback_file_existence 0 none (some "user") none (some "")
      (by decide) (by decide)⟩

end KaggleSkill
